import Mathlib

/-!
Verification development for the recipe recommendation service.

The Lean definitions below are a shallow embedding of the parts of the
code that the checked claims speak about: the regex-based recipe parser
of src/core/ingestion_service.py, the vector search of
src/data/repository.py, the ingestion and recommendation services, the
exception-to-HTTP mapping of src/api/error_map.py together with the
recommendation route, the RAG generation fallback of src/ai/rag.py, the
database bootstrap retry loop of src/data/database.py, and the service
initialization of src/main.py.

Python strings are modelled as lists of characters; case folding is
modelled on ASCII letters, which covers the ASCII literals the code
matches against.  External effects (the OpenAI embedding endpoint, the
chat model, PIL image decoding, the SQL engine) are modelled as explicit
function parameters, and the "recipes" table as a list of rows.
-/

/-- Python strings, modelled as lists of characters. -/
abbrev PyStr := List Char

/-- Whitespace as recognized by Python str.strip and by the regex class
backslash-s (ASCII part): space, tab, newline, carriage return, vertical
tab and form feed. -/
def isPyWs (c : Char) : Bool :=
  c = ' ' || c = '\t' || c = '\n' || c = '\r' || c = '\x0b' || c = '\x0c'

/-- Python str.strip with no argument: drop leading and trailing whitespace. -/
def pyStrip (s : PyStr) : PyStr :=
  ((s.dropWhile isPyWs).reverse.dropWhile isPyWs).reverse

/-- Python str.split on a newline: List.splitOn has the same semantics,
in particular the split of the empty string is one empty piece. -/
def splitNl (s : PyStr) : List PyStr :=
  List.splitOn '\n' s

/-- Python str.lower, restricted to ASCII case folding. -/
def pyLower (s : PyStr) : PyStr :=
  s.map Char.toLower

/-- Case-insensitive prefix test: models line.lower().startswith(pat) for a
lowercase ASCII literal pat, and equally a regex literal match under
re.IGNORECASE at the start of the text. -/
def lowerStartsWith (pat s : PyStr) : Bool :=
  List.isPrefixOf pat (pyLower s)

/-- The section marker RECIPE_SECTIONS["INGREDIENTS"] from src/constants.py. -/
def ingredientsKey : PyStr := "ingredients:".toList

/-- The section marker RECIPE_SECTIONS["INSTRUCTIONS"] from src/constants.py. -/
def instructionsKey : PyStr := "instructions:".toList

/-- IngestionService._extract_title: scan the lines of the content and
return the first stripped line that is non-blank and does not start,
case-insensitively, with "ingredients:" or "instructions:". -/
def extract_title (content : PyStr) : Option PyStr :=
  ((splitNl content).map pyStrip).find?
    (fun l => !l.isEmpty && !lowerStartsWith ingredientsKey l
      && !lowerStartsWith instructionsKey l)

/-- The regex fragment backslash-s-star followed by a newline, applied to the
text right after a section marker, with greedy backtracking: the whitespace
run after the marker is scanned and the match consumes it up to and
including its last newline.  Returns the text after that newline, or none
when the whitespace run holds no newline (then the marker occurrence does
not match). -/
def wsNlSplit (rest : PyStr) : Option PyStr :=
  let run := rest.takeWhile isPyWs
  if run.contains '\n' then
    let t := (run.reverse.takeWhile (fun c => c != '\n')).length
    some (rest.drop (run.length - t))
  else none

/-- Test for the regex fragment backslash-s-star followed by a case-insensitive
literal pat: true when some (possibly empty) whitespace prefix of v is
followed by pat. -/
def wsThenKey (pat : PyStr) : PyStr → Bool
  | [] => lowerStartsWith pat []
  | c :: rest => lowerStartsWith pat (c :: rest) || (isPyWs c && wsThenKey pat rest)

/-- The lookahead of the ingredients regex: a newline followed by optional
whitespace and the "Instructions:" marker, tested at a suffix of the text. -/
def ingLookahead (u : PyStr) : Bool :=
  match u with
  | '\n' :: rest => wsThenKey instructionsKey rest
  | _ => false

/-- The regex anchor for the end of the text without re.MULTILINE: it matches
at the very end and just before a trailing newline. -/
def dollarOk (u : PyStr) : Bool :=
  u.isEmpty || u == ['\n']

/-- The lazy captured group of the section regexes: starting from the capture
start, take characters until the first position where the stop lookahead or
the end anchor matches; the regex engine extends the lazy group one character
at a time, so the first such position ends the capture. -/
def lazyCapture (stop : PyStr → Bool) : PyStr → PyStr
  | [] => []
  | c :: rest =>
    if stop (c :: rest) || dollarOk (c :: rest) then []
    else c :: lazyCapture stop rest

/-- re.search for a pattern of the shape marker, whitespace-to-newline, lazy
captured group: scan left to right for the first position where the
case-insensitive marker followed by whitespace holding a newline matches, and
return the captured group from there (the lazy group can always extend to the
end anchor, so the whole pattern matches as soon as the marker part does). -/
def findCapture (pat : PyStr) (stop : PyStr → Bool) : PyStr → Option PyStr
  | [] => none
  | c :: rest =>
    if lowerStartsWith pat (c :: rest) then
      match wsNlSplit ((c :: rest).drop pat.length) with
      | some cap => some (lazyCapture stop cap)
      | none => findCapture pat stop rest
    else findCapture pat stop rest

/-- Cleanup applied to a captured section in _extract_ingredients and
_extract_instructions: strip the text, split it into lines, strip each line,
drop blank lines and join the rest with newlines. -/
def clean_lines (t : PyStr) : PyStr :=
  List.intercalate ['\n']
    (((splitNl (pyStrip t)).map pyStrip).filter (fun l => !l.isEmpty))

/-- IngestionService._extract_ingredients: search the ingredients regex
(marker "Ingredients:", whitespace to a newline, lazy group stopped by a
newline-whitespace-"Instructions:" lookahead or the end anchor) and clean up
the captured group. -/
def extract_ingredients (content : PyStr) : Option PyStr :=
  (findCapture ingredientsKey ingLookahead content).map clean_lines

/-- IngestionService._extract_instructions: search the instructions regex
(marker "Instructions:", whitespace to a newline, lazy group up to the end
anchor) and clean up the captured group. -/
def extract_instructions (content : PyStr) : Option PyStr :=
  (findCapture instructionsKey (fun _ => false) content).map clean_lines

/-- The in-memory recipe produced by parsing, before it gets an id and an
embedding: title, ingredients and instructions text. -/
structure ParsedRecipe where
  title : PyStr
  ingredients : PyStr
  instructions : PyStr
deriving Repr, DecidableEq

/-- IngestionService.parse_content: strip the content, then extract the
title, the ingredients section and the instructions section in that order;
any falsy result (a missing match or an empty cleaned section) makes the
whole parse return None. -/
def parse_content (content : PyStr) : Option ParsedRecipe :=
  let c := pyStrip content
  match extract_title c with
  | none => none
  | some title =>
    if title.isEmpty then none
    else
      match extract_ingredients c with
      | none => none
      | some ing =>
        if ing.isEmpty then none
        else
          match extract_instructions c with
          | none => none
          | some ins =>
            if ins.isEmpty then none
            else some ⟨title, ing, ins⟩

/-- Title extraction as the checked claim words it: the first line of the
text whose stripped form is non-blank and does not start, case-insensitively,
with "ingredients:" or "instructions:", returned stripped. -/
def spec_title (c : PyStr) : Option PyStr :=
  ((splitNl c).find? (fun l => !(pyStrip l).isEmpty
      && !lowerStartsWith ingredientsKey (pyStrip l)
      && !lowerStartsWith instructionsKey (pyStrip l))).map pyStrip

/-- The ingredients section as the checked claim words it: the lines between
the first line starting (case-insensitively, after stripping) with
"ingredients:" and the next line starting with "instructions:" or the end of
the text, each stripped, blank lines removed, joined with newlines. -/
def spec_ingredients_section (c : PyStr) : Option PyStr :=
  let lines := splitNl c
  match lines.findIdx? (fun l => lowerStartsWith ingredientsKey (pyStrip l)) with
  | none => none
  | some i =>
    let sec := (lines.drop (i + 1)).takeWhile
        (fun l => !lowerStartsWith instructionsKey (pyStrip l))
    some (List.intercalate ['\n'] ((sec.map pyStrip).filter (fun l => !l.isEmpty)))

/-- The instructions section as the checked claim words it: the lines after
the first line starting (case-insensitively, after stripping) with
"instructions:", each stripped, blank lines removed, joined with newlines. -/
def spec_instructions_section (c : PyStr) : Option PyStr :=
  let lines := splitNl c
  match lines.findIdx? (fun l => lowerStartsWith instructionsKey (pyStrip l)) with
  | none => none
  | some i =>
    some (List.intercalate ['\n']
      (((lines.drop (i + 1)).map pyStrip).filter (fun l => !l.isEmpty)))

/-- The parse behaviour the checked claim describes: a recipe exactly when
the stripped text has a title, a non-empty line-based ingredients section and
a non-empty line-based instructions section, with the fields equal to those
sections; None otherwise. -/
def parse_content_claimed (content : PyStr) : Option ParsedRecipe :=
  let c := pyStrip content
  match spec_title c, spec_ingredients_section c, spec_instructions_section c with
  | some t, some ing, some ins =>
    if ing.isEmpty || ins.isEmpty then none else some ⟨t, ing, ins⟩
  | _, _, _ => none

/-- The section match of the amended claim, positionally: at position i of
the text, the case-insensitive marker must occur, followed by whitespace
running over a newline; the capture is the lazy group from after that
newline. -/
def headerCaptureAt (pat : PyStr) (stop : PyStr → Bool) (c : PyStr) (i : ℕ) :
    Option PyStr :=
  if lowerStartsWith pat (c.drop i) then
    (wsNlSplit ((c.drop i).drop pat.length)).map (lazyCapture stop)
  else none

/-- The section capture of the amended claim: the capture at the leftmost
position of the text where the marker matches as described in
headerCaptureAt. -/
def spec_capture (pat : PyStr) (stop : PyStr → Bool) (c : PyStr) : Option PyStr :=
  ((List.range c.length).find?
    (fun i => (headerCaptureAt pat stop c i).isSome)).bind
    (headerCaptureAt pat stop c)

/-- The parse behaviour of the amended claim: a recipe exactly when the
stripped text has a title, a non-empty cleaned ingredients capture (leftmost
"ingredients:" marker occurrence — not necessarily at a line start — followed
by whitespace over a newline, captured lazily up to a newline-whitespace-
"instructions:" lookahead or the end) and a non-empty cleaned instructions
capture (leftmost "instructions:" marker occurrence followed by whitespace
over a newline, captured to the end); None otherwise. -/
def parse_content_amended (content : PyStr) : Option ParsedRecipe :=
  let c := pyStrip content
  match spec_title c,
      (spec_capture ingredientsKey ingLookahead c).map clean_lines,
      (spec_capture instructionsKey (fun _ => false) c).map clean_lines with
  | some t, some ing, some ins =>
    if ing.isEmpty || ins.isEmpty then none else some ⟨t, ing, ins⟩
  | _, _, _ => none

/-- A row of the recipes table (src/data/models.py): the embedding column is
nullable; vector entries are modelled as rationals.  The id is assigned by
the store; the model assigns the next index. -/
structure RecipeRow where
  id : ℕ
  title : PyStr
  ingredients : PyStr
  instructions : PyStr
  embedding : Option (List ℚ)
deriving Repr, DecidableEq

/-- The settings of src/config.py that the claims touch, with their default
values. -/
structure Settings where
  database_max_retries : ℕ := 5
  database_retry_delay : ℕ := 2
  vision_supported_formats : List PyStr :=
    ["JPEG".toList, "PNG".toList, "WEBP".toList, "GIF".toList]
  default_search_limit : ℕ := 5
  recommendation_search_limit : ℕ := 3
  recipe_recommendation_error : PyStr :=
    "I apologize, but I\'m having trouble generating a recipe recommendation at the moment. Please try again later.".toList

/-- Settings built from the defaults alone. -/
def defaultSettings : Settings := {}

/-- Python integer-or-None coalescing with `x or default`: None and 0 are
both falsy, so both are replaced by the default. -/
def pyOrNat (v : Option ℕ) (dflt : ℕ) : ℕ :=
  match v with
  | none => dflt
  | some n => if n = 0 then dflt else n

/-- Repository.search_by_embedding: an empty query embedding returns the
empty list without touching the store; otherwise the SQL query selects the
rows whose embedding is not null, ordered by the vector distance of their
embedding to the query embedding, limited to `limit or default_search_limit`.
The distance operator of the database is the parameter dist; ORDER BY is
modelled as sorting by that distance. -/
def search_by_embedding (dist : List ℚ → List ℚ → ℚ) (settings : Settings)
    (store : List RecipeRow) (embedding : List ℚ) (limit : Option ℕ) :
    List RecipeRow :=
  if embedding.isEmpty then []
  else
    let lim := pyOrNat limit settings.default_search_limit
    (List.insertionSort
      (fun a b =>
        dist (a.embedding.getD []) embedding
          ≤ dist (b.embedding.getD []) embedding)
      (store.filter (fun r => r.embedding.isSome))).take lim

/-- Repository.exists_by_title: whether some stored row has the title. -/
def exists_by_title (store : List RecipeRow) (title : PyStr) : Bool :=
  store.any (fun r => r.title == title)

/-- Repository.get_by_title: the first stored row with the title, if any. -/
def get_by_title (store : List RecipeRow) (title : PyStr) : Option RecipeRow :=
  store.find? (fun r => r.title == title)

/-- The outcome of IngestionService.ingest_recipe: the returned recipe, the
store afterwards, and how many times the embedding service was invoked. -/
structure IngestResult where
  result : Option RecipeRow
  store : List RecipeRow
  embedCalls : ℕ
deriving Repr, DecidableEq

/-- IngestionService.ingest_recipe: parse the content (None on failure); if a
recipe with the parsed title exists, return the stored one and change
nothing; otherwise attach the embedding returned by the embedding service —
which the code does not test for None — and insert the new row.
EmbeddingService.generate_recipe_embedding is the parameter embedFn, whose
None models a failed generation. -/
def ingest_recipe (embedFn : PyStr → PyStr → PyStr → Option (List ℚ))
    (store : List RecipeRow) (content : PyStr) : IngestResult :=
  match parse_content content with
  | none => ⟨none, store, 0⟩
  | some pr =>
    if exists_by_title store pr.title then
      ⟨get_by_title store pr.title, store, 0⟩
    else
      let emb := embedFn pr.title pr.ingredients pr.instructions
      let newRow : RecipeRow :=
        ⟨store.length, pr.title, pr.ingredients, pr.instructions, emb⟩
      ⟨some newRow, store ++ [newRow], 1⟩

/-- Python exceptions the modelled services raise. -/
inductive PyExc
  | valueError (msg : PyStr)
  | typeError (msg : PyStr)
  | indexError
  | pyError (msg : PyStr)
deriving Repr, DecidableEq

/-- The external calls RecommendationService.recommend_recipe makes, in the
order it makes them. -/
inductive SvcEv
  | embedEv
  | searchEv
  | genEv
deriving Repr, DecidableEq

/-- Python ", ".join over a list of strings. -/
def joinComma (xs : List PyStr) : PyStr :=
  List.intercalate (", ".toList) xs

/-- RecommendationService.recommend_recipe: raise ValueError on an empty
ingredients list; embed the comma-joined ingredient text (embedFn models
EmbeddingService.generate_text_embedding; None or an empty vector is falsy
and raises ValueError); search the store with the embedding, limited to
recommendation_search_limit; hand the retrieved rows and the joined text to
the RAG pipeline (genFn models RecipeRAGPipeline.generate_recommendation)
and return its output.  The second component records the external calls in
order. -/
def recommend_recipe (embedFn : PyStr → Option (List ℚ))
    (dist : List ℚ → List ℚ → ℚ) (settings : Settings)
    (store : List RecipeRow) (genFn : List RecipeRow → PyStr → PyStr)
    (ingredients : List PyStr) : Except PyExc PyStr × List SvcEv :=
  if ingredients.isEmpty then
    (Except.error (PyExc.valueError "Ingredients cannot be empty".toList), [])
  else
    let text := joinComma ingredients
    match embedFn text with
    | none =>
      (Except.error
        (PyExc.valueError "Failed to generate embedding for ingredients".toList),
        [SvcEv.embedEv])
    | some v =>
      if v.isEmpty then
        (Except.error
          (PyExc.valueError "Failed to generate embedding for ingredients".toList),
          [SvcEv.embedEv])
      else
        let similar := search_by_embedding dist settings store v
          (some settings.recommendation_search_limit)
        (Except.ok (genFn similar text), [SvcEv.embedEv, SvcEv.searchEv, SvcEv.genEv])

/-- Image formats PIL can report, plus a stand-in for any other format. -/
inductive ImageFmt
  | jpeg
  | png
  | webp
  | gif
  | bmp
  | otherFmt
deriving Repr, DecidableEq

/-- The format name PIL reports for an image. -/
def fmtName : ImageFmt → PyStr
  | ImageFmt.jpeg => "JPEG".toList
  | ImageFmt.png => "PNG".toList
  | ImageFmt.webp => "WEBP".toList
  | ImageFmt.gif => "GIF".toList
  | ImageFmt.bmp => "BMP".toList
  | ImageFmt.otherFmt => "OTHER".toList

/-- ImageVisionService.validate_image: PIL.Image.open is modelled by
parseImage, returning the decoded format or None when decoding raises (then
the except branch returns False); a decoded image is valid when its format
is among vision_supported_formats. -/
def validate_image {α : Type} (settings : Settings)
    (parseImage : α → Option ImageFmt) (img : α) : Bool :=
  match parseImage img with
  | none => false
  | some f => settings.vision_supported_formats.contains (fmtName f)

/-- The exception classes map_service_exception distinguishes. -/
inductive ExcIn
  | integrityError (msg : PyStr)
  | unicodeDecodeError (msg : PyStr)
  | valueError (msg : PyStr)
  | otherExc (msg : PyStr)
deriving Repr, DecidableEq

/-- Python substring membership, `pat in s`. -/
def containsSub (pat s : PyStr) : Bool :=
  decide (pat <:+: s)

/-- map_service_exception of src/api/error_map.py: the HTTP status code and
detail for each exception class; ValueError details branch on the message. -/
def map_service_exception : ExcIn → ℕ × PyStr
  | ExcIn.integrityError msg => (400, "Integrity error: ".toList ++ msg)
  | ExcIn.unicodeDecodeError _ =>
    (400, "Invalid file encoding. Please ensure the file is UTF-8 encoded.".toList)
  | ExcIn.valueError msg =>
    if containsSub "Ingredients cannot be empty".toList msg then
      (400, "Ingredients cannot be empty".toList)
    else if containsSub "Invalid file type".toList msg then
      (400, "Invalid file type. Please upload an image file.".toList)
    else if containsSub "Invalid image format".toList msg then
      (400, msg)
    else if containsSub "No ingredients could be detected".toList msg then
      (400, msg)
    else if containsSub "not enough values to unpack".toList msg then
      (400, "Invalid file type. Please upload an image file.".toList)
    else
      (400, msg)
  | ExcIn.otherExc _ =>
    (500,
      "An unexpected error occurred while processing your request. Please try again later.".toList)

/-- The recommend_recipe route handler of src/api/recommendation_route.py:
it calls the recommendation service and, in its except branch, turns every
exception into HTTP 500 with the generic recommendation error detail; it
never consults map_service_exception. -/
def recommend_recipe_route (settings : Settings)
    (svc : List PyStr → Except PyExc PyStr) (ingredients : List PyStr) :
    Except (ℕ × PyStr) PyStr :=
  match svc ingredients with
  | Except.ok r => Except.ok r
  | Except.error _ => Except.error (500, settings.recipe_recommendation_error)

/-- The dictionary RecipeRAGPipeline.generate_recommendation reads from
Pipeline.run: whether the dictionary is truthy, whether it holds the
chat_generator key, whether that value holds the replies key, and the text
of each reply. -/
structure RunRes where
  truthy : Bool
  hasChatGen : Bool
  hasReplies : Bool
  replies : List PyStr
deriving Repr, DecidableEq

/-- RecipeRAGPipeline.generate_recommendation: run the pipeline (an
exception propagates — there is no try block); if the result is truthy and
has the chat_generator and replies keys, index the first reply (IndexError
propagates when replies is empty); otherwise return the apology string. -/
def generate_recommendation (settings : Settings)
    (run : Except PyExc RunRes) : Except PyExc PyStr :=
  match run with
  | Except.error e => Except.error e
  | Except.ok r =>
    if r.truthy && r.hasChatGen && r.hasReplies then
      match r.replies with
      | [] => Except.error PyExc.indexError
      | t :: _ => Except.ok t
    else Except.ok settings.recipe_recommendation_error

/-- RecommendationService.recommend_recipe with its fallible collaborators
kept fallible: the guards raise ValueError as in recommend_recipe; the
similarity query runs inside handle_session, whose failure (a database
error, re-raised by the decorator) is the parameter dbErr and propagates;
on success the retrieved rows are those of search_by_embedding; the
generation step is RecipeRAGPipeline.generate_recommendation itself — the
embedded generate_recommendation applied to the outcome of Pipeline.run
(runFn) on the retrieved rows and the joined text — so a run exception or
an IndexError from an empty replies list propagates unchanged. -/
def recommend_recipe_exc (embedFn : PyStr → Option (List ℚ))
    (dist : List ℚ → List ℚ → ℚ) (settings : Settings)
    (store : List RecipeRow) (dbErr : Option PyExc)
    (runFn : List RecipeRow → PyStr → Except PyExc RunRes)
    (ingredients : List PyStr) : Except PyExc PyStr :=
  if ingredients.isEmpty then
    Except.error (PyExc.valueError "Ingredients cannot be empty".toList)
  else
    let text := joinComma ingredients
    match embedFn text with
    | none =>
      Except.error
        (PyExc.valueError "Failed to generate embedding for ingredients".toList)
    | some v =>
      if v.isEmpty then
        Except.error
          (PyExc.valueError "Failed to generate embedding for ingredients".toList)
      else
        match dbErr with
        | some e => Except.error e
        | none =>
          generate_recommendation settings
            (runFn (search_by_embedding dist settings store v
              (some settings.recommendation_search_limit)) text)

/-- RecommendationService.recommend_recipe_from_image: reject an invalid
image with ValueError; detect ingredients (extractFn models
ImageVisionService.extract_ingredients_from_image), rejecting an empty
detection with ValueError; then delegate to recommend_recipe — modelled
with its fallible query and generation steps — and pair its output with the
detected ingredients; any exception of the delegate propagates unchanged. -/
def recommend_recipe_from_image_exc {α : Type} (settings : Settings)
    (parseImage : α → Option ImageFmt) (extractFn : α → List PyStr)
    (embedFn : PyStr → Option (List ℚ)) (dist : List ℚ → List ℚ → ℚ)
    (store : List RecipeRow) (dbErr : Option PyExc)
    (runFn : List RecipeRow → PyStr → Except PyExc RunRes)
    (img : α) : Except PyExc (List PyStr × PyStr) :=
  if !validate_image settings parseImage img then
    Except.error (PyExc.valueError
      "Invalid image format. Please upload a valid image file (JPEG, PNG, WEBP, or GIF).".toList)
  else
    let detected := extractFn img
    if detected.isEmpty then
      Except.error (PyExc.valueError
        "No ingredients could be detected in the image. Please try uploading a clearer image with visible food ingredients.".toList)
    else
      match recommend_recipe_exc embedFn dist settings store dbErr runFn detected with
      | Except.error e => Except.error e
      | Except.ok r => Except.ok (detected, r)

/-- The observable steps of DatabaseManager.bootstrap: a connection attempt
(engine.connect and, if it succeeds, enabling the vector extension) and a
sleep of retry_delay seconds. -/
inductive BootEv
  | attemptEv (i : ℕ)
  | sleepEv
deriving Repr, DecidableEq

/-- The retry loop of DatabaseManager.bootstrap over the remaining attempt
indices.  ck i tells whether engine.connect raises on attempt i, ek i
whether enabling the vector extension then raises.  The accumulator conn is
the connection variable of the Python function: it keeps the value of the
last successful engine.connect across later failed attempts.  Returns the
final conn and the event trace; the loop breaks at the first attempt where
both steps succeed, and sleeps after a failed attempt i with i + 1 < total. -/
def bootstrap_loop (ck ek : ℕ → Bool) (total : ℕ) :
    List ℕ → Option ℕ → Option ℕ × List BootEv
  | [], conn => (conn, [])
  | i :: rest, conn =>
    if ck i then
      if ek i then (some i, [BootEv.attemptEv i])
      else
        let r := bootstrap_loop ck ek total rest (some i)
        (r.1, BootEv.attemptEv i ::
          (if i + 1 < total then BootEv.sleepEv :: r.2 else r.2))
    else
      let r := bootstrap_loop ck ek total rest conn
      (r.1, BootEv.attemptEv i ::
        (if i + 1 < total then BootEv.sleepEv :: r.2 else r.2))

/-- DatabaseManager.bootstrap: run the retry loop over `max_retries or
database_max_retries` attempt indices; afterwards, raise exactly when the
connection variable is still None (the error value records the attempt count
of the message), else enable of tables proceeds and it returns normally. -/
def bootstrap (ck ek : ℕ → Bool) (max_retries retry_delay : Option ℕ)
    (settings : Settings) : Except ℕ Unit × List BootEv :=
  let n := pyOrNat max_retries settings.database_max_retries
  let _delay := pyOrNat retry_delay settings.database_retry_delay
  let r := bootstrap_loop ck ek n (List.range n) none
  match r.1 with
  | none => (Except.error n, r.2)
  | some _ => (Except.ok (), r.2)

/-- The connection attempt indices recorded in a bootstrap event trace, in
order. -/
def attemptIdxs (evs : List BootEv) : List ℕ :=
  evs.filterMap (fun e => match e with
    | BootEv.attemptEv i => some i
    | BootEv.sleepEv => none)

/-- The number of sleeps recorded in a bootstrap event trace. -/
def countSleeps (evs : List BootEv) : ℕ :=
  evs.countP (fun e => decide (e = BootEv.sleepEv))

/-- The number of constructor parameters besides self of
RecipeRAGPipeline.__init__ in src/ai/rag.py: settings only. -/
def rag_pipeline_init_params : ℕ := 1

/-- The number of constructor parameters besides self of
EmbeddingService.__init__ in src/ai/embedding.py: settings and logger. -/
def embedding_service_init_params : ℕ := 2

/-- The number of constructor parameters besides self of
ImageVisionService.__init__ in src/ai/vision.py: settings and logger. -/
def vision_service_init_params : ℕ := 2

/-- The number of constructor parameters besides self of
IngestionService.__init__: repository, embedding service and logger. -/
def ingestion_service_init_params : ℕ := 3

/-- The number of constructor parameters besides self of
RecommendationService.__init__: repository, embedding service, RAG
pipeline, vision service and logger. -/
def recommendation_service_init_params : ℕ := 5

/-- A Python constructor call: passing a number of arguments different from
the parameter count of the target raises TypeError. -/
def callCtor (expected got : ℕ) (name : PyStr) : Except PyExc Unit :=
  if got = expected then Except.ok ()
  else Except.error (PyExc.typeError name)

/-- init_services of src/main.py, as the sequence of constructor calls it
makes with the argument counts of the call sites: EmbeddingService(settings,
logger), RecipeRAGPipeline(settings, logger), ImageVisionService(settings,
logger), IngestionService(repository, embedding_service, logger),
RecommendationService(repository, embedding_service, rag_pipeline,
vision_service, logger). -/
def init_services (_settings : Settings) : Except PyExc Unit := do
  let _ ← callCtor embedding_service_init_params 2 "EmbeddingService".toList
  let _ ← callCtor rag_pipeline_init_params 2 "RecipeRAGPipeline".toList
  let _ ← callCtor vision_service_init_params 2 "ImageVisionService".toList
  let _ ← callCtor ingestion_service_init_params 3 "IngestionService".toList
  let _ ← callCtor recommendation_service_init_params 5 "RecommendationService".toList
  Except.ok ()
/-- The extractor vocabulary of the source and the title description of the
claim coincide: mapping pyStrip over the lines before searching equals
searching the raw lines with the stripped predicate and stripping the hit. -/
theorem extract_title_eq_spec (c : PyStr) : extract_title c = spec_title c := by
  unfold extract_title spec_title
  rw [List.find?_map]
  rfl

/-- Shifting the marker search one character: the capture at position i + 1
of ch :: rest is the capture at position i of rest. -/
theorem headerCaptureAt_succ (pat : PyStr) (stop : PyStr → Bool) (ch : Char)
    (rest : PyStr) (i : ℕ) :
    headerCaptureAt pat stop (ch :: rest) (i + 1) = headerCaptureAt pat stop rest i := by
  unfold headerCaptureAt
  rw [List.drop_succ_cons]

/-- One step of the regex scan, as an equation. -/
theorem findCapture_cons (pat : PyStr) (stop : PyStr → Bool) (ch : Char)
    (rest : PyStr) :
    findCapture pat stop (ch :: rest)
      = if lowerStartsWith pat (ch :: rest) then
          match wsNlSplit ((ch :: rest).drop pat.length) with
          | some cap => some (lazyCapture stop cap)
          | none => findCapture pat stop rest
        else findCapture pat stop rest := rfl

/-- The left-to-right scan of the source regex search equals the leftmost
position selected by find? over all positions of the text. -/
theorem findCapture_eq_spec (pat : PyStr) (stop : PyStr → Bool) :
    ∀ c : PyStr, findCapture pat stop c = spec_capture pat stop c := by
  intro c
  induction c with
  | nil => rfl
  | cons ch rest ih =>
    have hsucc : ∀ i, headerCaptureAt pat stop (ch :: rest) (i + 1)
        = headerCaptureAt pat stop rest i := headerCaptureAt_succ pat stop ch rest
    have hlen : (ch :: rest).length = rest.length + 1 := rfl
    unfold spec_capture
    rw [hlen, List.range_succ_eq_map]
    have hcons : List.find? (fun i => (headerCaptureAt pat stop (ch :: rest) i).isSome)
        (0 :: List.map Nat.succ (List.range rest.length))
        = if (headerCaptureAt pat stop (ch :: rest) 0).isSome then some 0
          else List.find? (fun i => (headerCaptureAt pat stop (ch :: rest) i).isSome)
            (List.map Nat.succ (List.range rest.length)) := by
      rw [List.find?_cons]
      cases (headerCaptureAt pat stop (ch :: rest) 0).isSome <;> rfl
    by_cases h0 : (headerCaptureAt pat stop (ch :: rest) 0).isSome = true
    · rw [hcons, if_pos h0]
      have hz : headerCaptureAt pat stop (ch :: rest) 0
          = if lowerStartsWith pat (ch :: rest) then
              (wsNlSplit ((ch :: rest).drop pat.length)).map (lazyCapture stop)
            else none := by
        unfold headerCaptureAt
        rw [List.drop_zero]
      by_cases hs : lowerStartsWith pat (ch :: rest)
      · rw [hz, if_pos hs] at h0
        cases hw : wsNlSplit ((ch :: rest).drop pat.length) with
        | none => rw [hw] at h0; simp at h0
        | some cap =>
          show findCapture pat stop (ch :: rest)
            = (some 0).bind (headerCaptureAt pat stop (ch :: rest))
          rw [findCapture_cons, if_pos hs, hw]
          simp [hz, hw, hs]
      · rw [hz, if_neg hs] at h0
        simp at h0
    · rw [hcons, if_neg h0]
      have hscan : findCapture pat stop (ch :: rest) = findCapture pat stop rest := by
        rw [findCapture_cons]
        by_cases hs : lowerStartsWith pat (ch :: rest)
        · have hz : headerCaptureAt pat stop (ch :: rest) 0
              = (wsNlSplit ((ch :: rest).drop pat.length)).map (lazyCapture stop) := by
            unfold headerCaptureAt
            rw [List.drop_zero, if_pos hs]
          cases hw : wsNlSplit ((ch :: rest).drop pat.length) with
          | none => simp [hs, hw]
          | some cap => rw [hz, hw] at h0; simp at h0
        · rw [if_neg hs]
      rw [hscan, ih]
      unfold spec_capture
      rw [List.find?_map]
      have hp : ((fun i => (headerCaptureAt pat stop (ch :: rest) i).isSome) ∘ Nat.succ)
          = fun i => (headerCaptureAt pat stop rest i).isSome := by
        funext i
        simp only [Function.comp]
        rw [hsucc i]
      rw [hp, Option.bind_map]
      congr 1
/-- A title found by the claim description is never the empty string. -/
theorem spec_title_not_empty (c t : PyStr) (h : spec_title c = some t) :
    t.isEmpty = false := by
  unfold spec_title at h
  rcases Option.map_eq_some'.mp h with ⟨l, hl, hlt⟩
  have hq := List.find?_some hl
  simp only [Bool.and_eq_true, Bool.not_eq_true'] at hq
  rw [← hlt]
  exact hq.1.1

/-- C1, amended.  parse_content returns a parsed recipe exactly when the
stripped text has a title (first line whose stripped form is non-blank and
does not start, case-insensitively, with "ingredients:" or "instructions:"),
a non-empty cleaned ingredients capture and a non-empty cleaned instructions
capture, where a section header is the leftmost occurrence of the marker —
not necessarily at a line start — followed by whitespace running over a
newline, the ingredients capture extends to the first subsequent newline
followed by optional whitespace and "instructions:" or to the end of the
text (so it runs past an "Instructions:" header that directly follows the
ingredients header newline), the instructions capture extends to the end,
and the fields are the captures with each line stripped and blank lines
dropped; in every other case it returns None. -/
theorem parse_content_amended_correct (content : PyStr) :
    parse_content content = parse_content_amended content := by
  have h1 : extract_title (pyStrip content) = spec_title (pyStrip content) :=
    extract_title_eq_spec _
  have h2 : extract_ingredients (pyStrip content)
      = (spec_capture ingredientsKey ingLookahead (pyStrip content)).map clean_lines := by
    unfold extract_ingredients
    rw [findCapture_eq_spec]
  have h3 : extract_instructions (pyStrip content)
      = (spec_capture instructionsKey (fun _ => false) (pyStrip content)).map clean_lines := by
    unfold extract_instructions
    rw [findCapture_eq_spec]
  simp only [parse_content, parse_content_amended, h1, h2, h3]
  cases hT : spec_title (pyStrip content) with
  | none => rfl
  | some t =>
    have ht := spec_title_not_empty _ _ hT
    cases hI : spec_capture ingredientsKey ingLookahead (pyStrip content) with
    | none => simp [ht]
    | some icap =>
      cases hS : spec_capture instructionsKey (fun _ => false) (pyStrip content) with
      | none => simp [ht]
      | some scap =>
        simp only [Option.map_some', ht, Bool.false_eq_true, if_false]
        by_cases hie : (clean_lines icap).isEmpty
        · simp [hie]
        · by_cases hse : (clean_lines scap).isEmpty
          · simp [hie, hse]
          · simp [hie, hse]

/-- C1, counterexample.  On the text Title, Ingredients:, a blank line,
Instructions:, Step1 the line-based section reading of the claim has an
empty ingredients section, so the claim demands None; parse_content instead
returns a recipe whose ingredients field even swallows the Instructions:
header line. -/
theorem parse_content_claimed_refuted :
    parse_content "Title\nIngredients:\n\nInstructions:\nStep1".toList
      = some ⟨"Title".toList, "Instructions:\nStep1".toList, "Step1".toList⟩
    ∧ parse_content_claimed "Title\nIngredients:\n\nInstructions:\nStep1".toList
      = none := by
  constructor
  · rfl
  · rfl
/-- C2, counterexample.  With an explicit limit of 0 the claim demands
truncation to zero results, but Python `limit or default` treats 0 as falsy,
so the query runs with the default limit 5 and returns the stored row. -/
theorem search_by_embedding_zero_limit_refuted :
    search_by_embedding (fun _ _ => 0) defaultSettings
      [⟨1, "A".toList, "i".toList, "s".toList, some [1]⟩] [1] (some 0)
      = [⟨1, "A".toList, "i".toList, "s".toList, some [1]⟩]
    ∧ search_by_embedding (fun _ _ => 0) defaultSettings
      [⟨1, "A".toList, "i".toList, "s".toList, some [1]⟩] [1] (some 0) ≠ [] := by
  refine ⟨rfl, ?_⟩
  decide

/-- C2, amended.  For an empty query embedding search_by_embedding returns
the empty list without querying the store (the result is the same for every
store); for a non-empty query embedding it returns the stored rows whose
embedding is non-null, ordered by ascending distance to the query embedding,
truncated to the effective limit — the given limit when it is a positive
integer, and default_search_limit (5) when the limit is None or 0, Python
`limit or default` treating both as falsy. -/
theorem search_by_embedding_correct (dist : List ℚ → List ℚ → ℚ)
    (settings : Settings) (store : List RecipeRow) (embedding : List ℚ)
    (limit : Option ℕ) :
    search_by_embedding dist settings store [] limit = []
    ∧ (embedding ≠ [] → ∃ l : List RecipeRow,
        l.Perm (store.filter (fun r => r.embedding.isSome))
        ∧ List.Pairwise (fun a b =>
            dist (a.embedding.getD []) embedding
              ≤ dist (b.embedding.getD []) embedding) l
        ∧ search_by_embedding dist settings store embedding limit
            = l.take (pyOrNat limit settings.default_search_limit)) := by
  constructor
  · rfl
  · intro h
    have hne : embedding.isEmpty = false := by
      cases embedding with
      | nil => exact absurd rfl h
      | cons a l => rfl
    haveI htot : IsTotal RecipeRow (fun a b =>
        dist (a.embedding.getD []) embedding
          ≤ dist (b.embedding.getD []) embedding) :=
      ⟨fun a b => le_total _ _⟩
    haveI htrans : IsTrans RecipeRow (fun a b =>
        dist (a.embedding.getD []) embedding
          ≤ dist (b.embedding.getD []) embedding) :=
      ⟨fun a b c hab hbc => le_trans hab hbc⟩
    refine ⟨List.insertionSort
      (fun a b => dist (a.embedding.getD []) embedding
        ≤ dist (b.embedding.getD []) embedding)
      (store.filter (fun r => r.embedding.isSome)),
      List.perm_insertionSort _ _, List.sorted_insertionSort _ _, ?_⟩
    unfold search_by_embedding
    rw [hne]
    simp

/-- C2, witness for search_by_embedding_correct at a concrete store, query
embedding and limit. -/
theorem search_by_embedding_correct_witness :
    search_by_embedding (fun _ _ => 0) defaultSettings
      [⟨1, "A".toList, "i".toList, "s".toList, some [1]⟩] [] (some 2) = []
    ∧ (∃ l : List RecipeRow,
        l.Perm ([⟨1, "A".toList, "i".toList, "s".toList, some [1]⟩].filter
          (fun r => r.embedding.isSome))
        ∧ List.Pairwise (fun a b : RecipeRow =>
            (fun _ _ => (0 : ℚ)) (a.embedding.getD []) [1]
              ≤ (fun _ _ => (0 : ℚ)) (b.embedding.getD []) [1]) l
        ∧ search_by_embedding (fun _ _ => 0) defaultSettings
            [⟨1, "A".toList, "i".toList, "s".toList, some [1]⟩] [1] (some 2)
            = l.take (pyOrNat (some 2) defaultSettings.default_search_limit)) := by
  have h := search_by_embedding_correct (fun _ _ => 0) defaultSettings
    [⟨1, "A".toList, "i".toList, "s".toList, some [1]⟩] [1] (some 2)
  exact ⟨h.1, h.2 (by decide)⟩
/-- C3, counterexample.  When the embedding service fails (None), the code
attaches None without checking and still inserts the row: the newly created
recipe is stored with a null embedding, against the claim that every newly
stored recipe carries a non-null vector. -/
theorem ingest_recipe_null_embedding_refuted :
    (ingest_recipe (fun _ _ _ => none) []
        "Pasta\nIngredients:\nnoodles\nInstructions:\nboil".toList).store
      = [⟨0, "Pasta".toList, "noodles".toList, "boil".toList, none⟩]
    ∧ (RecipeRow.embedding
        ⟨0, "Pasta".toList, "noodles".toList, "boil".toList, none⟩) = none := by
  exact ⟨rfl, rfl⟩

/-- C3, amended.  Every recipe that ingest_recipe newly stores carries as
its embedding exactly the value the embedding service returned for the
parsed title, ingredients and instructions: a non-null vector whenever
generation succeeds, and null when generation fails — the code inserts the
row either way. -/
theorem ingest_recipe_embedding_correct
    (embedFn : PyStr → PyStr → PyStr → Option (List ℚ))
    (store : List RecipeRow) (content : PyStr) (pr : ParsedRecipe)
    (h1 : parse_content content = some pr)
    (h2 : exists_by_title store pr.title = false) :
    (ingest_recipe embedFn store content).store
      = store ++ [⟨store.length, pr.title, pr.ingredients, pr.instructions,
          embedFn pr.title pr.ingredients pr.instructions⟩]
    ∧ (ingest_recipe embedFn store content).result
      = some ⟨store.length, pr.title, pr.ingredients, pr.instructions,
          embedFn pr.title pr.ingredients pr.instructions⟩
    ∧ (∀ r ∈ (ingest_recipe embedFn store content).store, r ∉ store →
        r.embedding = embedFn pr.title pr.ingredients pr.instructions) := by
  unfold ingest_recipe
  rw [h1]
  simp only [h2, Bool.false_eq_true, if_false]
  refine ⟨by simp, by simp, ?_⟩
  intro r hr hnot
  rcases List.mem_append.mp hr with hin | hnew
  · exact absurd hin hnot
  · rcases List.mem_singleton.mp hnew with rfl
    rfl

/-- C3, witness for ingest_recipe_embedding_correct: a successful embedding
generation stores the returned vector. -/
theorem ingest_recipe_embedding_correct_witness :
    (ingest_recipe (fun _ _ _ => some [1, 2]) []
        "Pasta\nIngredients:\nnoodles\nInstructions:\nboil".toList).store
      = [] ++ [⟨0, "Pasta".toList, "noodles".toList, "boil".toList, some [1, 2]⟩]
    ∧ (ingest_recipe (fun _ _ _ => some [1, 2]) []
        "Pasta\nIngredients:\nnoodles\nInstructions:\nboil".toList).result
      = some ⟨0, "Pasta".toList, "noodles".toList, "boil".toList, some [1, 2]⟩
    ∧ (∀ r ∈ (ingest_recipe (fun _ _ _ => some [1, 2]) []
        "Pasta\nIngredients:\nnoodles\nInstructions:\nboil".toList).store,
        r ∉ ([] : List RecipeRow) →
        r.embedding = some [1, 2]) := by
  exact ingest_recipe_embedding_correct (fun _ _ _ => some [1, 2]) []
    "Pasta\nIngredients:\nnoodles\nInstructions:\nboil".toList
    ⟨"Pasta".toList, "noodles".toList, "boil".toList⟩ rfl rfl
/-- C4, confirmed.  For a non-empty ingredients list whose comma-joined text
embeds to a non-empty vector, recommend_recipe retrieves the rows most
similar to that embedding with limit recommendation_search_limit (3 by
default), hands exactly those retrieved rows together with the joined
ingredient text to the RAG pipeline, returns its output, and the event
trace places the retrieval strictly before the generation. -/
theorem recommend_recipe_rag_flow (embedFn : PyStr → Option (List ℚ))
    (dist : List ℚ → List ℚ → ℚ) (settings : Settings)
    (store : List RecipeRow) (genFn : List RecipeRow → PyStr → PyStr)
    (ingredients : List PyStr) (v : List ℚ)
    (h1 : ingredients ≠ [])
    (h2 : embedFn (joinComma ingredients) = some v)
    (h3 : v ≠ []) :
    recommend_recipe embedFn dist settings store genFn ingredients
      = (Except.ok (genFn
          (search_by_embedding dist settings store v
            (some settings.recommendation_search_limit))
          (joinComma ingredients)),
        [SvcEv.embedEv, SvcEv.searchEv, SvcEv.genEv])
    ∧ [SvcEv.embedEv, SvcEv.searchEv, SvcEv.genEv].indexOf SvcEv.searchEv
        < [SvcEv.embedEv, SvcEv.searchEv, SvcEv.genEv].indexOf SvcEv.genEv
    ∧ defaultSettings.recommendation_search_limit = 3 := by
  have hne : ingredients.isEmpty = false := by
    cases ingredients with
    | nil => exact absurd rfl h1
    | cons a l => rfl
  have hve : v.isEmpty = false := by
    cases v with
    | nil => exact absurd rfl h3
    | cons a l => rfl
  refine ⟨?_, by decide, rfl⟩
  unfold recommend_recipe
  simp only [hne, Bool.false_eq_true, if_false, h2, hve]

/-- C4, witness for recommend_recipe_rag_flow at a concrete ingredients
list, embedding function, store and pipeline. -/
theorem recommend_recipe_rag_flow_witness :
    recommend_recipe (fun _ => some [1]) (fun _ _ => 0) defaultSettings []
      (fun _ _ => "ok".toList) ["tomato".toList]
      = (Except.ok ((fun (_ : List RecipeRow) (_ : PyStr) => "ok".toList)
          (search_by_embedding (fun _ _ => 0) defaultSettings [] [1]
            (some defaultSettings.recommendation_search_limit))
          (joinComma ["tomato".toList])),
        [SvcEv.embedEv, SvcEv.searchEv, SvcEv.genEv])
    ∧ [SvcEv.embedEv, SvcEv.searchEv, SvcEv.genEv].indexOf SvcEv.searchEv
        < [SvcEv.embedEv, SvcEv.searchEv, SvcEv.genEv].indexOf SvcEv.genEv
    ∧ defaultSettings.recommendation_search_limit = 3 := by
  exact recommend_recipe_rag_flow (fun _ => some [1]) (fun _ _ => 0)
    defaultSettings [] (fun _ _ => "ok".toList) ["tomato".toList] [1]
    (by decide) rfl (by decide)
/-- C5, code bug.  For a POST /recommend-recipe request with an empty
ingredients list, the service does raise ValueError("Ingredients cannot be
empty") and map_service_exception would map it to 400 with that detail —
exactly what the unit test test_recommend_recipe_empty_ingredients expects —
but the route handler never calls map_service_exception: its blanket except
branch answers 500 with the generic recommendation error for every
exception. -/
theorem recommend_route_error_mapping :
    (recommend_recipe (fun _ => some [1]) (fun _ _ => 0) defaultSettings []
        (fun _ _ => "ok".toList) []).1
      = Except.error (PyExc.valueError "Ingredients cannot be empty".toList)
    ∧ recommend_recipe_route defaultSettings
        (fun ing => (recommend_recipe (fun _ => some [1]) (fun _ _ => 0)
          defaultSettings [] (fun _ _ => "ok".toList) ing).1) []
      = Except.error (500, defaultSettings.recipe_recommendation_error)
    ∧ map_service_exception
        (ExcIn.valueError "Ingredients cannot be empty".toList)
      = (400, "Ingredients cannot be empty".toList)
    ∧ (∀ m, map_service_exception (ExcIn.integrityError m)
        = (400, "Integrity error: ".toList ++ m))
    ∧ (∀ m, map_service_exception (ExcIn.unicodeDecodeError m)
        = (400,
          "Invalid file encoding. Please ensure the file is UTF-8 encoded.".toList))
    ∧ (∀ m, (map_service_exception (ExcIn.valueError m)).1 = 400)
    ∧ (∀ m, map_service_exception (ExcIn.otherExc m)
        = (500,
          "An unexpected error occurred while processing your request. Please try again later.".toList)) := by
  refine ⟨rfl, rfl, by decide, fun m => rfl, fun m => rfl, ?_, fun m => rfl⟩
  intro m
  unfold map_service_exception
  repeat' split
  all_goals first | rfl | simp_all
/-- C8, counterexample.  When the pipeline call raises, the exception
propagates out of generate_recommendation — there is no try block — instead
of being replaced by the generic apology string the claim promises. -/
theorem generate_recommendation_propagates_refuted :
    generate_recommendation defaultSettings
        (Except.error (PyExc.pyError "boom".toList))
      = Except.error (PyExc.pyError "boom".toList)
    ∧ generate_recommendation defaultSettings
        (Except.error (PyExc.pyError "boom".toList))
      ≠ Except.ok defaultSettings.recipe_recommendation_error := by
  exact ⟨rfl, by intro h; exact Except.noConfusion h⟩

/-- C8, amended.  generate_recommendation returns the generic apology string
exactly when the pipeline run returns a value that is falsy or lacks the
chat_generator or replies keys; an exception raised by the pipeline call
propagates to the caller unchanged, and a present but empty replies list
propagates an IndexError; a present non-empty replies list yields the text
of its first reply. -/
theorem generate_recommendation_correct (settings : Settings) :
    (∀ e, generate_recommendation settings (Except.error e) = Except.error e)
    ∧ (∀ r : RunRes, (r.truthy && r.hasChatGen && r.hasReplies) = false →
        generate_recommendation settings (Except.ok r)
          = Except.ok settings.recipe_recommendation_error)
    ∧ (∀ r : RunRes, (r.truthy && r.hasChatGen && r.hasReplies) = true →
        r.replies = [] →
        generate_recommendation settings (Except.ok r)
          = Except.error PyExc.indexError)
    ∧ (∀ (r : RunRes) (t : PyStr) (ts : List PyStr),
        (r.truthy && r.hasChatGen && r.hasReplies) = true →
        r.replies = t :: ts →
        generate_recommendation settings (Except.ok r) = Except.ok t) := by
  refine ⟨fun e => rfl, ?_, ?_, ?_⟩
  · intro r h
    simp only [generate_recommendation, h, Bool.false_eq_true, if_false]
  · intro r h hrep
    simp only [generate_recommendation, h, if_true, hrep]
  · intro r t ts h hrep
    simp only [generate_recommendation, h, if_true, hrep]

/-- C8, witness for generate_recommendation_correct at concrete run
results: a raised exception, a result lacking the replies key, an empty
replies list, and a successful reply. -/
theorem generate_recommendation_correct_witness :
    generate_recommendation defaultSettings (Except.error PyExc.indexError)
      = Except.error PyExc.indexError
    ∧ generate_recommendation defaultSettings
        (Except.ok ⟨true, true, false, []⟩)
      = Except.ok defaultSettings.recipe_recommendation_error
    ∧ generate_recommendation defaultSettings
        (Except.ok ⟨true, true, true, []⟩)
      = Except.error PyExc.indexError
    ∧ generate_recommendation defaultSettings
        (Except.ok ⟨true, true, true, ["hi".toList]⟩)
      = Except.ok "hi".toList := by
  refine ⟨(generate_recommendation_correct defaultSettings).1 _, ?_, ?_, ?_⟩
  · exact (generate_recommendation_correct defaultSettings).2.1 _ rfl
  · exact (generate_recommendation_correct defaultSettings).2.2.1 _ rfl rfl
  · exact (generate_recommendation_correct defaultSettings).2.2.2 _ _ _ rfl rfl
/-- An image passes validate_image with the default settings exactly when it
decodes to one of the four supported formats. -/
theorem validate_image_iff {α : Type} (parseImage : α → Option ImageFmt)
    (img : α) :
    validate_image defaultSettings parseImage img = true
      ↔ ∃ f, parseImage img = some f
          ∧ (f = ImageFmt.jpeg ∨ f = ImageFmt.png ∨ f = ImageFmt.webp
            ∨ f = ImageFmt.gif) := by
  unfold validate_image
  cases hp : parseImage img with
  | none => simp
  | some f =>
    cases f <;> simp [fmtName, defaultSettings]

/-- One step of the bootstrap retry loop, as an equation. -/
theorem bootstrap_loop_cons (ck ek : ℕ → Bool) (total i : ℕ) (rest : List ℕ)
    (conn : Option ℕ) :
    bootstrap_loop ck ek total (i :: rest) conn
      = if ck i then
          if ek i then (some i, [BootEv.attemptEv i])
          else
            let r := bootstrap_loop ck ek total rest (some i)
            (r.1, BootEv.attemptEv i ::
              (if i + 1 < total then BootEv.sleepEv :: r.2 else r.2))
        else
          let r := bootstrap_loop ck ek total rest conn
          (r.1, BootEv.attemptEv i ::
            (if i + 1 < total then BootEv.sleepEv :: r.2 else r.2)) := rfl

/-- When a list has a find? hit, the prefix of non-hits is strictly shorter
than the list. -/
theorem takeWhile_length_lt_of_find? {α : Type} {p : α → Bool} :
    ∀ {l : List α} {j : α}, l.find? p = some j →
      (l.takeWhile (fun a => !p a)).length < l.length := by
  intro l
  induction l with
  | nil => intro j h; exact absurd h (by simp)
  | cons a t ih =>
    intro j h
    cases hp : p a with
    | true =>
      simp [List.takeWhile_cons, hp]
    | false =>
      rw [List.find?_cons_of_neg _ (by simp [hp])] at h
      have := ih h
      simp only [List.takeWhile_cons, hp, Bool.not_false, if_true,
        List.length_cons]
      omega

/-- The three invariants of the bootstrap retry loop: the final connection
variable is None exactly when it started None and engine.connect raised on
every remaining attempt; the recorded attempts are the failing prefix
followed by the first fully successful attempt, or all of them when none
fully succeeds; and a sleep is recorded exactly after each failed attempt i
with i + 1 < total. -/
theorem bootstrap_loop_props (ck ek : ℕ → Bool) (total : ℕ) :
    ∀ (is : List ℕ) (conn : Option ℕ),
      ((bootstrap_loop ck ek total is conn).1 = none
        ↔ conn = none ∧ ∀ i ∈ is, ck i = false)
      ∧ attemptIdxs (bootstrap_loop ck ek total is conn).2
          = (match is.find? (fun i => ck i && ek i) with
            | some j => is.takeWhile (fun i => !(ck i && ek i)) ++ [j]
            | none => is)
      ∧ countSleeps (bootstrap_loop ck ek total is conn).2
          = ((is.takeWhile (fun i => !(ck i && ek i))).filter
              (fun i => i + 1 < total)).length := by
  intro is
  induction is with
  | nil =>
    intro conn
    refine ⟨?_, rfl, rfl⟩
    simp [bootstrap_loop]
  | cons i rest ih =>
    intro conn
    cases hck : ck i with
    | true =>
      cases hek : ek i with
      | true =>
        rw [bootstrap_loop_cons, if_pos hck, if_pos hek]
        refine ⟨by simp [hck], ?_, ?_⟩
        · rw [List.find?_cons_of_pos _ (by simp [hck, hek])]
          simp [attemptIdxs, List.takeWhile_cons, hck, hek]
        · rw [List.takeWhile_cons]
          simp [countSleeps, hck, hek]
      | false =>
        rw [bootstrap_loop_cons, if_pos hck, if_neg (by simp [hek])]
        have hrest := ih (some i)
        refine ⟨?_, ?_, ?_⟩
        · simp only []
          rw [hrest.1]
          simp [hck]
        · rw [List.find?_cons_of_neg _ (by simp [hck, hek])]
          rw [List.takeWhile_cons]
          simp only [hck, hek, Bool.and_false, Bool.not_false, if_true]
          by_cases hlt : i + 1 < total
          · simp only [if_pos hlt, attemptIdxs, List.filterMap_cons]
            have h2 := hrest.2.1
            simp only [attemptIdxs] at h2
            rw [h2]
            cases hf : rest.find? (fun i => ck i && ek i) <;> simp
          · simp only [if_neg hlt, attemptIdxs, List.filterMap_cons]
            have h2 := hrest.2.1
            simp only [attemptIdxs] at h2
            rw [h2]
            cases hf : rest.find? (fun i => ck i && ek i) <;> simp
        · rw [List.takeWhile_cons]
          simp only [hck, hek, Bool.and_false, Bool.not_false, if_true]
          by_cases hlt : i + 1 < total
          · simp only [if_pos hlt]
            have h3 := hrest.2.2
            simp only [countSleeps] at h3 ⊢
            simp [List.countP_cons, h3, List.filter_cons, hlt]
          · simp only [if_neg hlt]
            have h3 := hrest.2.2
            simp only [countSleeps] at h3 ⊢
            simp [List.countP_cons, h3, List.filter_cons, hlt]
    | false =>
      rw [bootstrap_loop_cons, if_neg (by simp [hck])]
      have hrest := ih conn
      refine ⟨?_, ?_, ?_⟩
      · simp only []
        rw [hrest.1]
        constructor
        · rintro ⟨h1, h2⟩
          exact ⟨h1, by
            intro j hj
            rcases List.mem_cons.mp hj with rfl | hjr
            · exact hck
            · exact h2 j hjr⟩
        · rintro ⟨h1, h2⟩
          exact ⟨h1, fun j hj => h2 j (List.mem_cons_of_mem i hj)⟩
      · rw [List.find?_cons_of_neg _ (by simp [hck])]
        rw [List.takeWhile_cons]
        simp only [hck, Bool.false_and, Bool.not_false, if_true]
        by_cases hlt : i + 1 < total
        · simp only [if_pos hlt, attemptIdxs, List.filterMap_cons]
          have h2 := hrest.2.1
          simp only [attemptIdxs] at h2
          rw [h2]
          cases hf : rest.find? (fun i => ck i && ek i) <;> simp
        · simp only [if_neg hlt, attemptIdxs, List.filterMap_cons]
          have h2 := hrest.2.1
          simp only [attemptIdxs] at h2
          rw [h2]
          cases hf : rest.find? (fun i => ck i && ek i) <;> simp
      · rw [List.takeWhile_cons]
        simp only [hck, Bool.false_and, Bool.not_false, if_true]
        by_cases hlt : i + 1 < total
        · simp only [if_pos hlt]
          have h3 := hrest.2.2
          simp only [countSleeps] at h3 ⊢
          simp [List.countP_cons, h3, List.filter_cons, hlt]
        · simp only [if_neg hlt]
          have h3 := hrest.2.2
          simp only [countSleeps] at h3 ⊢
          simp [List.countP_cons, h3, List.filter_cons, hlt]

/-- C7, counterexample.  With a connection that always succeeds but a vector
extension step that always raises, every one of the 2 attempts fails, yet
bootstrap returns normally — the connection variable retained the value of
the first connect, so the final None check does not fire; and with an
explicit max_retries of 0 the loop runs the default 5 attempts, not at most
0, because Python `max_retries or default` treats 0 as falsy. -/
theorem bootstrap_claim_refuted :
    bootstrap (fun _ => true) (fun _ => false) (some 2) (some 1) defaultSettings
      = (Except.ok (), [BootEv.attemptEv 0, BootEv.sleepEv, BootEv.attemptEv 1])
    ∧ attemptIdxs (bootstrap (fun _ => false) (fun _ => false) (some 0) (some 1)
        defaultSettings).2 = [0, 1, 2, 3, 4] := by
  exact ⟨rfl, rfl⟩

/-- C7, amended.  bootstrap runs at most n connection attempts, where n is
max_retries when positive and database_max_retries (5) when max_retries is
None or 0; it stops at the first attempt where both connecting and enabling
the vector extension succeed (the recorded attempts are the failing prefix
followed by that attempt, or all n when no attempt fully succeeds); it
sleeps retry_delay exactly after each failed attempt i with i + 1 < n; and
it raises if and only if engine.connect itself raised on every attempt — in
particular, when some attempt connected but enabling the extension failed
every time, the retained connection makes bootstrap proceed to create the
tables without raising. -/
theorem bootstrap_correct (ck ek : ℕ → Bool) (max_retries retry_delay : Option ℕ)
    (settings : Settings) :
    ((bootstrap ck ek max_retries retry_delay settings).1
        = Except.error (pyOrNat max_retries settings.database_max_retries)
      ↔ ∀ i < pyOrNat max_retries settings.database_max_retries, ck i = false)
    ∧ ((bootstrap ck ek max_retries retry_delay settings).1 = Except.ok ()
      ↔ ¬ (bootstrap ck ek max_retries retry_delay settings).1
          = Except.error (pyOrNat max_retries settings.database_max_retries))
    ∧ attemptIdxs (bootstrap ck ek max_retries retry_delay settings).2
        = (match (List.range (pyOrNat max_retries settings.database_max_retries)).find?
              (fun i => ck i && ek i) with
          | some j =>
            (List.range (pyOrNat max_retries settings.database_max_retries)).takeWhile
              (fun i => !(ck i && ek i)) ++ [j]
          | none => List.range (pyOrNat max_retries settings.database_max_retries))
    ∧ (attemptIdxs (bootstrap ck ek max_retries retry_delay settings).2).length
        ≤ pyOrNat max_retries settings.database_max_retries
    ∧ countSleeps (bootstrap ck ek max_retries retry_delay settings).2
        = (((List.range (pyOrNat max_retries settings.database_max_retries)).takeWhile
            (fun i => !(ck i && ek i))).filter
            (fun i => i + 1 < pyOrNat max_retries settings.database_max_retries)).length := by
  have hprops := bootstrap_loop_props ck ek
    (pyOrNat max_retries settings.database_max_retries)
    (List.range (pyOrNat max_retries settings.database_max_retries)) none
  have hres : (bootstrap ck ek max_retries retry_delay settings).2
      = (bootstrap_loop ck ek (pyOrNat max_retries settings.database_max_retries)
          (List.range (pyOrNat max_retries settings.database_max_retries)) none).2 := by
    simp only [bootstrap]
    cases hx : (bootstrap_loop ck ek (pyOrNat max_retries settings.database_max_retries)
        (List.range (pyOrNat max_retries settings.database_max_retries)) none).1
      <;> rfl
  have hforall : ((bootstrap_loop ck ek
        (pyOrNat max_retries settings.database_max_retries)
        (List.range (pyOrNat max_retries settings.database_max_retries)) none).1
        = none)
      ↔ ∀ i < pyOrNat max_retries settings.database_max_retries, ck i = false := by
    rw [hprops.1]
    simp [List.mem_range]
  refine ⟨?_, ?_, ?_, ?_, ?_⟩
  · rw [← hforall]
    simp only [bootstrap]
    cases hc : (bootstrap_loop ck ek (pyOrNat max_retries settings.database_max_retries)
        (List.range (pyOrNat max_retries settings.database_max_retries)) none).1 with
    | none => simp [hc]
    | some j => simp [hc]
  · simp only [bootstrap]
    cases hc : (bootstrap_loop ck ek (pyOrNat max_retries settings.database_max_retries)
        (List.range (pyOrNat max_retries settings.database_max_retries)) none).1 with
    | none => simp [hc]
    | some j => simp [hc]
  · rw [hres]
    exact hprops.2.1
  · rw [hres, hprops.2.1]
    cases hf : (List.range (pyOrNat max_retries settings.database_max_retries)).find?
        (fun i => ck i && ek i) with
    | none => simp
    | some j =>
      simp only [List.length_append, List.length_singleton]
      have := takeWhile_length_lt_of_find? hf
      rw [List.length_range] at this
      omega
  · rw [hres]
    exact hprops.2.2

/-- C7, witness for bootstrap_correct: the second attempt is the first full
success, so there are two attempts, one sleep, and no raise. -/
theorem bootstrap_correct_witness :
    ((bootstrap (fun i => i == 1) (fun _ => true) none none defaultSettings).1
        = Except.error (pyOrNat none defaultSettings.database_max_retries)
      ↔ ∀ i < pyOrNat none defaultSettings.database_max_retries,
          (fun i : ℕ => i == 1) i = false)
    ∧ ((bootstrap (fun i => i == 1) (fun _ => true) none none defaultSettings).1
        = Except.ok ()
      ↔ ¬ (bootstrap (fun i => i == 1) (fun _ => true) none none defaultSettings).1
          = Except.error (pyOrNat none defaultSettings.database_max_retries))
    ∧ attemptIdxs (bootstrap (fun i => i == 1) (fun _ => true) none none
        defaultSettings).2
        = (match (List.range (pyOrNat none defaultSettings.database_max_retries)).find?
              (fun i => (fun i : ℕ => i == 1) i && (fun _ : ℕ => true) i) with
          | some j =>
            (List.range (pyOrNat none defaultSettings.database_max_retries)).takeWhile
              (fun i => !((fun i : ℕ => i == 1) i && (fun _ : ℕ => true) i)) ++ [j]
          | none => List.range (pyOrNat none defaultSettings.database_max_retries))
    ∧ (attemptIdxs (bootstrap (fun i => i == 1) (fun _ => true) none none
        defaultSettings).2).length
        ≤ pyOrNat none defaultSettings.database_max_retries
    ∧ countSleeps (bootstrap (fun i => i == 1) (fun _ => true) none none
        defaultSettings).2
        = (((List.range (pyOrNat none defaultSettings.database_max_retries)).takeWhile
            (fun i => !((fun i : ℕ => i == 1) i && (fun _ : ℕ => true) i))).filter
            (fun i => i + 1 < pyOrNat none defaultSettings.database_max_retries)).length := by
  exact bootstrap_correct (fun i => i == 1) (fun _ => true) none none defaultSettings
/-- A freshly appended row makes its title existing. -/
theorem exists_by_title_append (store : List RecipeRow) (r : RecipeRow) :
    exists_by_title (store ++ [r]) r.title = true := by
  unfold exists_by_title
  rw [List.any_append]
  simp

/-- C9, confirmed.  When the parsed title already names a stored recipe,
ingest_recipe inserts nothing, never calls the embedding service, and
returns the first stored recipe with that title; consequently ingesting the
same content twice leaves the store exactly as after ingesting it once. -/
theorem ingest_recipe_idempotent
    (embedFn : PyStr → PyStr → PyStr → Option (List ℚ))
    (store : List RecipeRow) (content : PyStr) :
    (∀ pr, parse_content content = some pr →
      exists_by_title store pr.title = true →
      ingest_recipe embedFn store content
        = ⟨get_by_title store pr.title, store, 0⟩)
    ∧ (ingest_recipe embedFn
        (ingest_recipe embedFn store content).store content).store
      = (ingest_recipe embedFn store content).store := by
  constructor
  · intro pr hpr hex
    unfold ingest_recipe
    rw [hpr]
    simp [hex]
  · cases hp : parse_content content with
    | none => unfold ingest_recipe; rw [hp]
    | some pr =>
      by_cases hex : exists_by_title store pr.title = true
      · unfold ingest_recipe
        rw [hp]
        simp [hex]
      · have hfirst : (ingest_recipe embedFn store content).store
            = store ++ [⟨store.length, pr.title, pr.ingredients, pr.instructions,
                embedFn pr.title pr.ingredients pr.instructions⟩] := by
          unfold ingest_recipe
          rw [hp]
          simp [hex]
        rw [hfirst]
        have hex2 : exists_by_title
            (store ++ [⟨store.length, pr.title, pr.ingredients, pr.instructions,
              embedFn pr.title pr.ingredients pr.instructions⟩]) pr.title = true :=
          exists_by_title_append store _
        unfold ingest_recipe
        rw [hp]
        simp [hex2]

/-- C9, witness for ingest_recipe_idempotent with a store that already holds
the parsed title. -/
theorem ingest_recipe_idempotent_witness :
    ingest_recipe (fun _ _ _ => some [1])
        [⟨7, "Pasta".toList, "old".toList, "old".toList, none⟩]
        "Pasta\nIngredients:\nnoodles\nInstructions:\nboil".toList
      = ⟨get_by_title [⟨7, "Pasta".toList, "old".toList, "old".toList, none⟩]
          "Pasta".toList,
        [⟨7, "Pasta".toList, "old".toList, "old".toList, none⟩], 0⟩
    ∧ (ingest_recipe (fun _ _ _ => some [1])
        (ingest_recipe (fun _ _ _ => some [1])
          [⟨7, "Pasta".toList, "old".toList, "old".toList, none⟩]
          "Pasta\nIngredients:\nnoodles\nInstructions:\nboil".toList).store
        "Pasta\nIngredients:\nnoodles\nInstructions:\nboil".toList).store
      = (ingest_recipe (fun _ _ _ => some [1])
          [⟨7, "Pasta".toList, "old".toList, "old".toList, none⟩]
          "Pasta\nIngredients:\nnoodles\nInstructions:\nboil".toList).store := by
  have h := ingest_recipe_idempotent (fun _ _ _ => some [1])
    [⟨7, "Pasta".toList, "old".toList, "old".toList, none⟩]
    "Pasta\nIngredients:\nnoodles\nInstructions:\nboil".toList
  exact ⟨h.1 ⟨"Pasta".toList, "noodles".toList, "boil".toList⟩ rfl (by decide), h.2⟩

/-- C10, code bug.  init_services of src/main.py constructs the RAG
pipeline as RecipeRAGPipeline(settings, app.state.logger) — two arguments —
while RecipeRAGPipeline.__init__ of src/ai/rag.py accepts only settings, so
for every settings value the call raises TypeError and application startup
fails; the claim that the argument list matches the constructor signature
is the clear intent, and the code contradicts it. -/
theorem init_services_raises (settings : Settings) :
    init_services settings
      = Except.error (PyExc.typeError "RecipeRAGPipeline".toList) := rfl
/-- C6, counterexample.  With a valid JPEG, a non-empty detection and a
successful embedding, a failing chat-generation step makes the downstream
recommendation fail, yet recommend_recipe_from_image does not raise
ValueError: a pipeline run exception propagates unchanged, and an empty
replies list propagates an IndexError, so the downstream failure is not a
ValueError as the claim demands. -/
theorem recommend_image_valueerror_refuted :
    recommend_recipe_from_image_exc defaultSettings
        (fun _ : ℕ => some ImageFmt.jpeg) (fun _ => ["tomato".toList])
        (fun _ => some [1]) (fun _ _ => 0) [] none
        (fun _ _ => Except.error (PyExc.pyError "boom".toList)) 0
      = Except.error (PyExc.pyError "boom".toList)
    ∧ (∀ m, PyExc.pyError "boom".toList ≠ PyExc.valueError m)
    ∧ recommend_recipe_from_image_exc defaultSettings
        (fun _ : ℕ => some ImageFmt.jpeg) (fun _ => ["tomato".toList])
        (fun _ => some [1]) (fun _ _ => 0) [] none
        (fun _ _ => Except.ok ⟨true, true, true, []⟩) 0
      = Except.error PyExc.indexError
    ∧ (∀ m, PyExc.indexError ≠ PyExc.valueError m) := by
  exact ⟨rfl, fun m h => PyExc.noConfusion h, rfl,
    fun m h => PyExc.noConfusion h⟩

/-- C6, amended.  recommend_recipe_from_image returns normally exactly when
the image decodes to a supported format (JPEG, PNG, WEBP or GIF with the
default settings), at least one ingredient is detected, and the downstream
recommend_recipe — with its fallible similarity query and chat-generation
steps — succeeds on exactly the detected ingredients, the result then being
the pair of the detected ingredients and that recommendation; it raises
ValueError exactly when the image is invalid or unsupported, when no
ingredients are detected, or when the downstream recommendation itself
raises a ValueError; every other downstream exception — a pipeline run
failure, an IndexError from an empty replies list, a database error raised
during the similarity query — propagates to the caller unchanged. -/
theorem recommend_recipe_from_image_exc_correct {α : Type}
    (parseImage : α → Option ImageFmt) (extractFn : α → List PyStr)
    (embedFn : PyStr → Option (List ℚ)) (dist : List ℚ → List ℚ → ℚ)
    (store : List RecipeRow) (dbErr : Option PyExc)
    (runFn : List RecipeRow → PyStr → Except PyExc RunRes) (img : α) :
    (∀ det rec,
      recommend_recipe_from_image_exc defaultSettings parseImage extractFn
          embedFn dist store dbErr runFn img = Except.ok (det, rec)
        ↔ ((∃ f, parseImage img = some f
              ∧ (f = ImageFmt.jpeg ∨ f = ImageFmt.png ∨ f = ImageFmt.webp
                ∨ f = ImageFmt.gif))
          ∧ det = extractFn img ∧ extractFn img ≠ []
          ∧ recommend_recipe_exc embedFn dist defaultSettings store dbErr
              runFn (extractFn img) = Except.ok rec))
    ∧ ((∃ m,
        recommend_recipe_from_image_exc defaultSettings parseImage extractFn
            embedFn dist store dbErr runFn img
          = Except.error (PyExc.valueError m))
        ↔ (¬ (∃ f, parseImage img = some f
              ∧ (f = ImageFmt.jpeg ∨ f = ImageFmt.png ∨ f = ImageFmt.webp
                ∨ f = ImageFmt.gif))
          ∨ extractFn img = []
          ∨ ∃ m, recommend_recipe_exc embedFn dist defaultSettings store dbErr
              runFn (extractFn img) = Except.error (PyExc.valueError m)))
    ∧ (∀ e, validate_image defaultSettings parseImage img = true →
        extractFn img ≠ [] →
        recommend_recipe_exc embedFn dist defaultSettings store dbErr runFn
          (extractFn img) = Except.error e →
        recommend_recipe_from_image_exc defaultSettings parseImage extractFn
          embedFn dist store dbErr runFn img = Except.error e) := by
  cases hv : validate_image defaultSettings parseImage img with
  | false =>
    have hnot : ¬ ∃ f, parseImage img = some f
        ∧ (f = ImageFmt.jpeg ∨ f = ImageFmt.png ∨ f = ImageFmt.webp
          ∨ f = ImageFmt.gif) := by
      intro hcon
      have := (validate_image_iff parseImage img).mpr hcon
      rw [hv] at this
      exact Bool.false_ne_true this
    refine ⟨?_, ?_, ?_⟩
    · intro det rec
      unfold recommend_recipe_from_image_exc
      rw [hv]
      simp only [Bool.not_false, if_true]
      constructor
      · intro hcon
        exact Except.noConfusion hcon
      · intro hcon
        exact absurd hcon.1 hnot
    · unfold recommend_recipe_from_image_exc
      rw [hv]
      simp only [Bool.not_false, if_true]
      constructor
      · intro _
        exact Or.inl hnot
      · intro _
        exact ⟨_, rfl⟩
    · intro e hv2
      exact absurd hv2 (by simp)
  | true =>
    have hyes := (validate_image_iff parseImage img).mp hv
    cases hd : (extractFn img).isEmpty with
    | true =>
      have hdn : extractFn img = [] := by
        cases hde : extractFn img with
        | nil => rfl
        | cons a l => rw [hde] at hd; exact absurd hd (by simp)
      refine ⟨?_, ?_, ?_⟩
      · intro det rec
        unfold recommend_recipe_from_image_exc
        rw [hv]
        simp only [Bool.not_true, Bool.false_eq_true, if_false, hd, if_true]
        constructor
        · intro hcon
          exact Except.noConfusion hcon
        · intro hcon
          exact absurd hdn hcon.2.2.1
      · unfold recommend_recipe_from_image_exc
        rw [hv]
        simp only [Bool.not_true, Bool.false_eq_true, if_false, hd, if_true]
        constructor
        · intro _
          exact Or.inr (Or.inl hdn)
        · intro _
          exact ⟨_, rfl⟩
      · intro e _ hne
        exact absurd hdn hne
    | false =>
      have hdn : extractFn img ≠ [] := by
        intro hcon
        rw [hcon] at hd
        exact absurd hd (by simp)
      cases hr : recommend_recipe_exc embedFn dist defaultSettings store dbErr
          runFn (extractFn img) with
      | error e0 =>
        refine ⟨?_, ?_, ?_⟩
        · intro det rec
          unfold recommend_recipe_from_image_exc
          rw [hv]
          simp only [Bool.not_true, Bool.false_eq_true, if_false, hd, hr]
          constructor
          · intro hcon
            exact Except.noConfusion hcon
          · intro hcon
            exact Except.noConfusion hcon.2.2.2
        · unfold recommend_recipe_from_image_exc
          rw [hv]
          simp only [Bool.not_true, Bool.false_eq_true, if_false, hd, hr]
          constructor
          · rintro ⟨m, hm⟩
            have he0 : e0 = PyExc.valueError m := by
              injection hm
            exact Or.inr (Or.inr ⟨m, by rw [he0]⟩)
          · rintro (hcon | hcon | ⟨m, hm⟩)
            · exact absurd hyes hcon
            · exact absurd hcon hdn
            · have he0 : e0 = PyExc.valueError m := by
                injection hm
              exact ⟨m, by rw [he0]⟩
        · intro e _ _ hre
          unfold recommend_recipe_from_image_exc
          rw [hv]
          simp only [Bool.not_true, Bool.false_eq_true, if_false, hd, hr]
          have he : e0 = e := by
            injection hre
          rw [he]
      | ok r0 =>
        refine ⟨?_, ?_, ?_⟩
        · intro det rec
          unfold recommend_recipe_from_image_exc
          rw [hv]
          simp only [Bool.not_true, Bool.false_eq_true, if_false, hd, hr]
          constructor
          · intro hok
            injection hok with hinj
            injection hinj with h1 h2
            subst h1
            subst h2
            exact ⟨hyes, rfl, hdn, rfl⟩
          · intro hcon
            obtain ⟨-, hdet, -, hok⟩ := hcon
            injection hok with h2
            subst hdet
            subst h2
            rfl
        · unfold recommend_recipe_from_image_exc
          rw [hv]
          simp only [Bool.not_true, Bool.false_eq_true, if_false, hd, hr]
          constructor
          · rintro ⟨m, hm⟩
            exact absurd hm (by intro h; exact Except.noConfusion h)
          · rintro (hcon | hcon | ⟨m, hm⟩)
            · exact absurd hyes hcon
            · exact absurd hcon hdn
            · exact absurd hm (by intro h; exact Except.noConfusion h)
        · intro e _ _ hre
          exact absurd hre (by intro h; exact Except.noConfusion h)

/-- C6, witness for recommend_recipe_from_image_exc_correct: a PNG image
with one detected ingredient and a successful generation yields the
detected pair, and the same image with a failing database session
propagates the database error. -/
theorem recommend_recipe_from_image_exc_correct_witness :
    recommend_recipe_from_image_exc defaultSettings
        (fun _ : ℕ => some ImageFmt.png) (fun _ => ["tomato".toList])
        (fun _ => some [1]) (fun _ _ => 0) [] none
        (fun _ _ => Except.ok ⟨true, true, true, ["ok".toList]⟩) 0
      = Except.ok (["tomato".toList], "ok".toList)
    ∧ recommend_recipe_from_image_exc defaultSettings
        (fun _ : ℕ => some ImageFmt.png) (fun _ => ["tomato".toList])
        (fun _ => some [1]) (fun _ _ => 0) []
        (some (PyExc.pyError "db down".toList))
        (fun _ _ => Except.ok ⟨true, true, true, ["ok".toList]⟩) 0
      = Except.error (PyExc.pyError "db down".toList) := by
  constructor
  · exact ((recommend_recipe_from_image_exc_correct
        (fun _ : ℕ => some ImageFmt.png) (fun _ => ["tomato".toList])
        (fun _ => some [1]) (fun _ _ => 0) [] none
        (fun _ _ => Except.ok ⟨true, true, true, ["ok".toList]⟩) 0).1
      ["tomato".toList] "ok".toList).mpr
      ⟨⟨ImageFmt.png, rfl, Or.inr (Or.inl rfl)⟩, rfl, by decide, rfl⟩
  · exact (recommend_recipe_from_image_exc_correct
        (fun _ : ℕ => some ImageFmt.png) (fun _ => ["tomato".toList])
        (fun _ => some [1]) (fun _ _ => 0) []
        (some (PyExc.pyError "db down".toList))
        (fun _ _ => Except.ok ⟨true, true, true, ["ok".toList]⟩) 0).2.2
      (PyExc.pyError "db down".toList) rfl (by decide) rfl
